import Mathlib

/-!
# Verification of the motion-spec-extractor core

A shallow embedding, over `ℚ`, of the extraction/normalisation core of the
repository: the temporal-easing → cubic-Bezier converters
(`extractors/easing.jsx`, in its two variants), the cubic-Bezier sampling and
inversion primitive (`figma-plugin/src/utils/bezier-math.ts`), the bounded
property-graph walker (`utils/property-walker.jsx`), the keyframe and property
extractors (`extractors/layer.jsx`, keyframe section), the recursive shape
content extractor (`extractors/layer.jsx`, shape section), and the animation
summary aggregator (`computeAnimationSummary`).

JavaScript numbers are modelled as rationals; a host read that can throw is
modelled as an `Option`-valued field (`none` = the read threw); JS `null`
results are a distinguished `JSValue.jnull`.  Host object graphs supplied by
the authoring tool are modelled as explicit data.
-/

/-- `Math.max(0, Math.min(1, q))` — clamp to the unit interval. -/
def clamp01 (q : ℚ) : ℚ := max 0 (min 1 q)

/-- JavaScript `Math.round`: halves round toward positive infinity. -/
def jround (q : ℚ) : ℤ := ⌊q + 1/2⌋

/-- `PROPERTY_WALK_MAX_DEPTH` from `utils/property-walker.jsx`: maximum
recursion depth of the generic property-group walker. -/
def PROPERTY_WALK_MAX_DEPTH : Nat := 20

/-- `Math.round(q * 10000) / 10000` — round to 4 decimal places. -/
def round4 (q : ℚ) : ℚ := (jround (q * 10000) : ℚ) / 10000

/-- One entry of an AE temporal-ease array (`KeyframeEase`): speed and
influence. -/
structure Ease where
  speed : ℚ
  influence : ℚ
deriving DecidableEq, Repr

/-- The result record of the easing converters.  The source also carries a
`css` string rendering of the same four numbers; being pure presentation it is
not modelled. -/
structure CubicBezier where
  x1 : ℚ
  y1 : ℚ
  x2 : ℚ
  y2 : ℚ
deriving DecidableEq, Repr

/-- The identity / linear fallback bezier `(0, 0, 1, 1)` returned by the
degenerate-segment guard. -/
def identityBezier : CubicBezier := ⟨0, 0, 1, 1⟩

/-- A normalised JS value as the extractors see it: number, array of numbers,
string, boolean, or the `null` sentinel. -/
inductive JSValue where
  | num (q : ℚ)
  | arr (xs : List ℚ)
  | str (s : String)
  | bool (b : Bool)
  | jnull
deriving DecidableEq, Repr

/-- `interpolationTypeToString` (both easing.jsx variants): map the raw
integer enum code to a name; `6612/6613/6614` are the codes of the
`KeyframeInterpolationType` enum members, so the enum-member fallback branch
of the source can never fire on a numeric code and the final fallback is
`String(type)`. -/
def interpolationTypeToString (type : ℤ) : String :=
  if type = 6612 then "LINEAR"
  else if type = 6613 then "BEZIER"
  else if type = 6614 then "HOLD"
  else toString type

/-- `convertEasingToCubicBezier(outEase, inEaseNext, duration)` — the
simplified converter, identical in `extractors/easing.jsx` and in the
dimension-aware variant file.  Indexing an empty ease array throws in the
source; that is modelled by returning `none`.  `duration` is accepted and
ignored exactly as in the source. -/
def convertEasingToCubicBezier (outEase inEaseNext : List Ease)
    (_duration : ℚ) : Option CubicBezier :=
  match outEase[0]?, inEaseNext[0]? with
  | some o, some i =>
    let outSpeed := o.speed
    let outInfluence := o.influence / 100
    let inSpeed := i.speed
    let inInfluence := i.influence / 100
    let x1 := outInfluence
    let x2 := 1 - inInfluence
    let y1 := if outSpeed = 0 then 0 else x1
    let y2 := if inSpeed = 0 then 1 else x2
    let x1c := clamp01 x1
    let x2c := clamp01 x2
    some ⟨round4 x1c, round4 y1, round4 x2c, round4 y2⟩
  | _, _ => none

namespace EasingV1

/-- The scalar value change used by the first (dimension-0) variant of
`convertEasingWithValues` in `extractors/easing.jsx`: numbers subtract
directly, arrays use dimension 0 only, any other combination leaves the
change at `0`.  Subtracting a missing element of an empty array yields `NaN`
in the source; that path is modelled as `none`. -/
def scalarValueChange (startValue endValue : JSValue) : Option ℚ :=
  match startValue, endValue with
  | .num a, .num b => some (b - a)
  | .arr a, .arr b =>
    match a[0]?, b[0]? with
    | some a0, some b0 => some (b0 - a0)
    | _, _ => none
  | _, _ => some 0

/-- `convertEasingWithValues` from `extractors/easing.jsx` (lines 155–213):
value-aware conversion that always uses dimension 0 of array values. -/
def convertEasingWithValues (outEase inEaseNext : List Ease) (duration : ℚ)
    (startValue endValue : JSValue) : Option CubicBezier :=
  match scalarValueChange startValue endValue with
  | none => none
  | some valueChange =>
    if |valueChange| < 1/10000 ∨ duration < 1/10000 then
      some identityBezier
    else
      let linearSpeed := |valueChange / duration|
      match outEase[0]?, inEaseNext[0]? with
      | some o, some i =>
        let outSpeed := o.speed
        let outInfluence := o.influence / 100
        let inSpeed := i.speed
        let inInfluence := i.influence / 100
        let x1 := outInfluence
        let x2 := 1 - inInfluence
        let y1 := x1 * (|outSpeed| / linearSpeed)
        let y2 := 1 - inInfluence * (|inSpeed| / linearSpeed)
        some ⟨round4 (clamp01 x1), round4 y1, round4 (clamp01 x2), round4 y2⟩
      | _, _ => none

end EasingV1

/-- `findBestDimension(startValue, endValue)` from the dimension-aware easing
variant: scan all shared dimensions of two array values and keep the (first)
dimension whose absolute change is strictly largest; scalars use dimension 0,
any other shape yields `(0, 0)`. -/
def findBestDimension (startValue endValue : JSValue) : Nat × ℚ :=
  match startValue, endValue with
  | .num a, .num b => (0, b - a)
  | .arr a, .arr b =>
    let len := min a.length b.length
    (List.range len).foldl
      (fun acc i =>
        let dimChange := |b.getD i 0 - a.getD i 0|
        if |acc.2| < dimChange then (i, b.getD i 0 - a.getD i 0) else acc)
      (0, 0)
  | _, _ => (0, 0)

/-- Proof-support abbreviation for the scanning loop of
`findBestDimension`, with the per-dimension delta abstracted as `δ`:
`findBestDimension (.arr a) (.arr b)` is `foldBest` of the pointwise
difference over the shared length. -/
def foldBest (δ : Nat → ℚ) (len : Nat) : Nat × ℚ :=
  (List.range len).foldl
    (fun acc i => if |acc.2| < |δ i| then (i, δ i) else acc) (0, 0)

namespace EasingV2

/-- `convertEasingWithValues` from the dimension-aware easing variant: select
the dominant dimension with `findBestDimension`, guard degenerate segments,
and read the ease entries at the dominant dimension clamped to the length of
each ease array (`Math.min(dimIndex, ease.length - 1)`; an out-of-range read,
possible only for empty ease arrays, throws in the source and is modelled as
`none`). -/
def convertEasingWithValues (outEase inEaseNext : List Ease) (duration : ℚ)
    (startValue endValue : JSValue) : Option CubicBezier :=
  let best := findBestDimension startValue endValue
  let valueChange := best.2
  let dimIndex := best.1
  if |valueChange| < 1/10000 ∨ duration < 1/10000 then
    some identityBezier
  else
    let linearSpeed := |valueChange / duration|
    let easeDim := min dimIndex (outEase.length - 1)
    let easeInDim := min dimIndex (inEaseNext.length - 1)
    match outEase[easeDim]?, inEaseNext[easeInDim]? with
    | some o, some i =>
      let outSpeed := o.speed
      let outInfluence := o.influence / 100
      let inSpeed := i.speed
      let inInfluence := i.influence / 100
      let x1 := outInfluence
      let x2 := 1 - inInfluence
      let y1 := x1 * (|outSpeed| / linearSpeed)
      let y2 := 1 - inInfluence * (|inSpeed| / linearSpeed)
      some ⟨round4 (clamp01 x1), round4 y1, round4 (clamp01 x2), round4 y2⟩
    | _, _ => none

end EasingV2

/-! ## Bezier sampling primitive (`figma-plugin/src/utils/bezier-math.ts`) -/

/-- `sampleCubicBezier(x1, y1, x2, y2, t)`: evaluate the cubic Bernstein form
with fixed endpoints `(0,0)` and `(1,1)` at parameter `t`, returning the
point `(x, y)`. -/
def sampleCubicBezier (x1 y1 x2 y2 t : ℚ) : ℚ × ℚ :=
  let mt := 1 - t
  let mt2 := mt * mt
  let mt3 := mt2 * mt
  let t2 := t * t
  let t3 := t2 * t
  (mt3 * 0 + 3 * mt2 * t * x1 + 3 * mt * t2 * x2 + t3 * 1,
   mt3 * 0 + 3 * mt2 * t * y1 + 3 * mt * t2 * y2 + t3 * 1)

/-- The Newton–Raphson loop of `bezierYForX`, with the remaining iteration
count (`10 - i` of the source's `for` loop) as an explicit argument.  Each
iteration: sample at `t`; if the x-residual is below `eps`, return the
sampled y; if the x-derivative is below `eps` in magnitude, stop without
dividing and return the current sample's y; otherwise take a Newton step and
clamp `t` to `[0,1]`.  When the iteration budget is exhausted the final
sample's y is returned. -/
def bezierYForXGo (x1 y1 x2 y2 targetX eps : ℚ) : Nat → ℚ → ℚ
  | 0, t => (sampleCubicBezier x1 y1 x2 y2 t).2
  | n + 1, t =>
    let point := sampleCubicBezier x1 y1 x2 y2 t
    let dx := point.1 - targetX
    if |dx| < eps then point.2
    else
      let mt := 1 - t
      let dxdt := 3 * mt * mt * x1 + 6 * mt * t * (x2 - x1) + 3 * t * t * (1 - x2)
      if |dxdt| < eps then (sampleCubicBezier x1 y1 x2 y2 t).2
      else bezierYForXGo x1 y1 x2 y2 targetX eps n (clamp01 (t - dx / dxdt))

/-- `bezierYForX(x1, y1, x2, y2, targetX, epsilon = 0.0001)`: invert the
x-parameterisation by Newton–Raphson, starting from `t = targetX`, for at
most 10 iterations. -/
def bezierYForX (x1 y1 x2 y2 targetX eps : ℚ) : ℚ :=
  bezierYForXGo x1 y1 x2 y2 targetX eps 10 targetX

/-! ## Property-graph walker (`utils/property-walker.jsx`)

The live host graph is modelled as a total map from node ids to node
descriptors; a descriptor records the outcome of each host read the walker
performs (`numProperties` probe, per-index child fetch, `propertyType`
probe).  Cyclic graphs are expressible, which is exactly what the walker's
depth guard protects against. -/

/-- Outcome of reading `node.numProperties`: the read throws, returns a
non-number, or returns an integer count. -/
inductive NumProbe where
  | pthrows
  | notNumber
  | num (n : ℤ)
deriving DecidableEq, Repr

/-- Outcome of fetching `node.property(i)`: the fetch throws, returns a null
value, or returns a node (identified by id). -/
inductive ChildFetch where
  | cthrows
  | cnull
  | cnode (id : Nat)
deriving DecidableEq, Repr

/-- One host node as seen by the walker.  `propertyType` is `none` when the
read throws, `some true` when the node is a leaf (`PropertyType.PROPERTY`)
and `some false` when it is a group kind. -/
structure WalkNode where
  numProperties : NumProbe
  child : Nat → ChildFetch
  propertyType : Option Bool

/-- A (possibly cyclic) host property graph. -/
def WalkGraph : Type := Nat → WalkNode

/-- The body of `walkPropertyGroup`, with the walker's remaining recursion
budget (`PROPERTY_WALK_MAX_DEPTH + 1 - depth`, justified by
`walkGo_fuel_irrelevant` below) as explicit structural fuel.  Returns the
list of `(node, depth)` callback invocations in order.  The source's
control flow is mirrored branch by branch: depth guard, `numProperties`
probe and positivity test, per-index child fetch with skip-on-throw and
skip-on-null, leaf/group dispatch on `propertyType`, and the
`numProperties`-based fallback dispatch when the `propertyType` read
throws. -/
def walkGo (g : WalkGraph) : Nat → Nat → Nat → List (Nat × Nat)
  | _, _, 0 => []
  | id, depth, fuel + 1 =>
    if PROPERTY_WALK_MAX_DEPTH < depth then []
    else
      match (g id).numProperties with
      | .pthrows => []
      | .notNumber => []
      | .num n =>
        if n ≤ 0 then []
        else
          (List.range n.toNat).flatMap fun k =>
            match (g id).child (k + 1) with
            | .cthrows => []
            | .cnull => []
            | .cnode c =>
              match (g c).propertyType with
              | some true => [(c, depth)]
              | some false => walkGo g c (depth + 1) fuel
              | none =>
                match (g c).numProperties with
                | .num m => if 0 < m then walkGo g c (depth + 1) fuel else [(c, depth)]
                | .notNumber => [(c, depth)]
                | .pthrows => []

/-- `walkPropertyGroup(propertyGroup, callback, depth)`: the recursive walk,
as the list of `(node, depth)` callback invocations.  The fuel argument of
`walkGo` is fixed at the bound the depth guard enforces, so this is the
total function the source computes. -/
def walkPropertyGroup (g : WalkGraph) (id : Nat) (depth : Nat) : List (Nat × Nat) :=
  walkGo g id depth (PROPERTY_WALK_MAX_DEPTH + 1 - depth)

/-! ## Keyframe and property extraction (`extractors/layer.jsx`, keyframe
section)

A host `Property` is modelled as a record of read outcomes: each facet the
extractor queries is an `Option` (`none` = the read threw).  `numKeys` is
read without a try/catch in the source (a throw there would abort the whole
extraction call rather than produce a descriptor), so it is modelled as a
plain count. -/

/-- The host `PropertyValueType` enumeration, restricted to the members the
extractors compare against. -/
inductive PVT where
  | NO_VALUE
  | ThreeD_SPATIAL
  | ThreeD
  | TwoD_SPATIAL
  | TwoD
  | OneD
  | COLOR
  | CUSTOM_VALUE
  | MARKER
deriving DecidableEq, Repr

/-- A host property, as the record of outcomes of every read the keyframe
and property extractors perform on it. -/
structure HostProperty where
  name : Option String
  matchName : Option String
  propertyValueType : Option PVT
  isTimeVarying : Option Bool
  expressionEnabled : Option Bool
  expression : Option String
  value : Option JSValue
  numKeys : Nat
  keyTime : Nat → Option ℚ
  keyValue : Nat → Option JSValue
  keyInInterpolationType : Nat → Option ℤ
  keyOutInterpolationType : Nat → Option ℤ
  keyInTemporalEase : Nat → Option (List Ease)
  keyOutTemporalEase : Nat → Option (List Ease)
  keyInSpatialTangent : Nat → Option (List ℚ)
  keyOutSpatialTangent : Nat → Option (List ℚ)
  keyRoving : Nat → Option Bool
  keyTemporalAutoBezier : Nat → Option Bool
  keyTemporalContinuous : Nat → Option Bool
  keySpatialAutoBezier : Nat → Option Bool
  keySpatialContinuous : Nat → Option Bool

/-- `normalizeKeyValue(val)`: numbers, arrays, strings and booleans pass
through (arrays are copied element-wise); the remaining case is the
`String(val)` fallback, which for a null value renders `"null"`. -/
def normalizeKeyValue : JSValue → JSValue
  | .num q => .num q
  | .arr xs => .arr xs
  | .str s => .str s
  | .bool b => .bool b
  | .jnull => .str "null"

/-- `getPropertyValue(property)` (keyframe.jsx variant): read
`property.value`, returning the null sentinel if the read throws, and
normalise exactly as `normalizeKeyValue` does. -/
def getPropertyValue (p : HostProperty) : JSValue :=
  match p.value with
  | none => .jnull
  | some v => normalizeKeyValue v

/-- The `TemporalEasing` record built per keyframe: raw per-dimension
speed/influence arrays plus the converted outgoing-segment bezier. -/
structure TemporalEasing where
  inSpeed : List ℚ
  inInfluence : List ℚ
  outSpeed : List ℚ
  outInfluence : List ℚ
  cubicBezier : Option CubicBezier
deriving DecidableEq, Repr

/-- One extracted keyframe descriptor.  Fields the source sets only inside a
successful try are `Option`s; `value` is the null sentinel when the
`keyValue` read throws. -/
structure Keyframe where
  index : Nat
  time : ℚ
  frame : ℤ
  value : JSValue
  interpolationType : Option (String × String)
  temporalEasing : Option TemporalEasing
  spatialEasing : Option (List ℚ × List ℚ)
  roving : Option Bool
  temporalAutoBezier : Option Bool
  temporalContinuous : Option Bool
  spatialAutoBezier : Option Bool
  spatialContinuous : Option Bool
deriving DecidableEq, Repr

instance : Inhabited Keyframe :=
  ⟨⟨0, 0, 0, .jnull, none, none, none, none, none, none, none, none⟩⟩

/-- The keyframe descriptor `extractKeyframes` builds for host index `i`
once the `keyTime(i)` read has succeeded with value `time`.  The outgoing
segment's bezier is attempted with the value-aware converter and falls back
to the simplified converter when that throws; if either of the
`keyInTemporalEase(i+1)` / `keyTime(i+1)` reads fails, both attempts fail
and the bezier is null. -/
def buildKeyframe (p : HostProperty) (frameRate : ℚ) (i : Nat) (time : ℚ) :
    Keyframe :=
  let value : JSValue :=
    match p.keyValue i with
    | none => .jnull
    | some v => normalizeKeyValue v
  let interpolationType :=
    match p.keyInInterpolationType i, p.keyOutInterpolationType i with
    | some a, some b => some (interpolationTypeToString a, interpolationTypeToString b)
    | _, _ => none
  let temporalEasing :=
    match p.keyOutTemporalEase i, p.keyInTemporalEase i with
    | some outEase, some inEase =>
      let cubicBezier : Option CubicBezier :=
        if i < p.numKeys then
          match p.keyInTemporalEase (i + 1), p.keyTime (i + 1), p.keyValue (i + 1) with
          | some inEaseNext, some nextTime, some nextValue =>
            match EasingV2.convertEasingWithValues outEase inEaseNext
                (nextTime - time) value (normalizeKeyValue nextValue) with
            | some b => some b
            | none => convertEasingToCubicBezier outEase inEaseNext (nextTime - time)
          | some inEaseNext, some nextTime, none =>
            convertEasingToCubicBezier outEase inEaseNext (nextTime - time)
          | _, _, _ => none
        else none
      some { inSpeed := inEase.map Ease.speed,
             inInfluence := inEase.map Ease.influence,
             outSpeed := outEase.map Ease.speed,
             outInfluence := outEase.map Ease.influence,
             cubicBezier := cubicBezier }
    | _, _ => none
  let spatialEasing :=
    match p.keyInSpatialTangent i, p.keyOutSpatialTangent i with
    | some a, some b => some (a, b)
    | _, _ => none
  { index := i
    time := time
    frame := jround (time * frameRate)
    value := value
    interpolationType := interpolationType
    temporalEasing := temporalEasing
    spatialEasing := spatialEasing
    roving := p.keyRoving i
    temporalAutoBezier := p.keyTemporalAutoBezier i
    temporalContinuous := p.keyTemporalContinuous i
    spatialAutoBezier := p.keySpatialAutoBezier i
    spatialContinuous := p.keySpatialContinuous i }

/-- `extractKeyframes(property, frameRate)`: iterate host indices `1..numKeys`;
a keyframe whose `keyTime` read throws is skipped entirely (`continue`), every
other read failure only blanks the corresponding facet. -/
def extractKeyframes (p : HostProperty) (frameRate : ℚ) : List Keyframe :=
  (List.range' 1 p.numKeys).filterMap fun i =>
    (p.keyTime i).map (buildKeyframe p frameRate i)

/-- An extracted `AnimatedProperty` descriptor.  A field the source leaves
unset is `none`; `staticValue = some .jnull` models the field being set to
the null sentinel. -/
structure AnimatedProperty where
  name : Option String
  matchName : Option String
  isAnimated : Bool
  dimensions : Nat
  keyframes : Option (List Keyframe)
  staticValue : Option JSValue
  expression : Option String
deriving DecidableEq, Repr

/-- `extractAnimatedProperty(property, frameRate)`: build the portable
property descriptor; `none` models the source returning null for a
`NO_VALUE` property.  `isAnimated` falls back to `false` when the
`isTimeVarying` read throws; `dimensions` falls back to 1 when the
`propertyValueType` read throws. -/
def extractAnimatedProperty (p : HostProperty) (frameRate : ℚ) :
    Option AnimatedProperty :=
  if p.propertyValueType = some .NO_VALUE then none
  else
    let isAnimated := (p.isTimeVarying).getD false
    let dimensions : Nat :=
      match p.propertyValueType with
      | some .ThreeD_SPATIAL => 3
      | some .ThreeD => 3
      | some .TwoD_SPATIAL => 2
      | some .TwoD => 2
      | _ => 1
    some
      { name := p.name
        matchName := p.matchName
        isAnimated := isAnimated
        dimensions := dimensions
        keyframes := if isAnimated then some (extractKeyframes p frameRate) else none
        staticValue := if isAnimated then none else some (getPropertyValue p)
        expression :=
          match p.expressionEnabled, p.expression with
          | some true, some e => if e = "" then none else some e
          | _, _ => none }

/-! ## Shape content extraction (`extractors/layer.jsx`, shape section)

Shape content supplied by the host is modelled as a finite tree.  Each slot
of a group records whether the per-index `property(i)` fetch threw or
returned null (skipped), or produced a child.  For a child whose match name
is `"ADBE Vector Group"`, the fetches of its `"ADBE Vectors Group"` contents
and `"ADBE Vector Transform Group"` are each recorded as throw / null /
value; non-group children carry the flat list of their own sub-property
slots.  `name` and `matchName` are read without a try/catch in the source,
so they are plain fields. -/

/-- Outcome of fetching a sub-property group of leaves (the
`numProperties` probe of `extractShapeElementProperties` /
`extractGroupProperties`): `inaccessible` covers a throwing probe, a
non-number result and a non-positive count, all of which yield an empty
result list. -/
inductive ElemGroup where
  | inaccessible
  | elems (slots : List (Option HostProperty))

/-- Outcome of fetching the `"ADBE Vector Transform Group"` of a vector
group child. -/
inductive TransformFetch where
  | tthrow
  | tnull
  | tgrp (g : ElemGroup)

mutual
/-- A shape-contents property group (`extractShapeGroup`'s argument):
either its `numProperties` probe fails (throws, returns a non-number, or a
non-positive count) or it exposes an indexed list of child slots. -/
inductive ShapePG where
  | inaccessible
  | grp (children : List ShapeSlot)

/-- One `property(i)` slot of a shape group: the fetch threw or returned
null (the loop skips it), or it produced a child node. -/
inductive ShapeSlot where
  | skip
  | child (c : ShapeChildNode)

/-- A fetched shape child: its name, match name, the fetch of its
`"ADBE Vectors Group"` sub-contents (only consulted for vector groups) and
of its `"ADBE Vector Transform Group"`, and its own flat sub-property slots
(only consulted for non-group children). -/
inductive ShapeChildNode where
  | mk (name matchName : String) (vectorsGroup : VectorsFetch)
      (transformGroup : TransformFetch) (elementGroup : ElemGroup)

/-- Outcome of fetching `prop.property("ADBE Vectors Group")`. -/
inductive VectorsFetch where
  | vthrow
  | vnull
  | vgrp (pg : ShapePG)
end

/-- `getShapeType(matchName)`: fixed name-to-type lookup with an `unknown`
fallback. -/
def getShapeType (matchName : String) : String :=
  if matchName = "ADBE Vector Group" then "group"
  else if matchName = "ADBE Vector Shape - Group" then "path"
  else if matchName = "ADBE Vector Graphic - Fill" then "fill"
  else if matchName = "ADBE Vector Graphic - Stroke" then "stroke"
  else if matchName = "ADBE Vector Filter - Trim" then "trim"
  else if matchName = "ADBE Vector Transform Group" then "transform"
  else if matchName = "ADBE Vector Shape - Rect" then "rectangle"
  else if matchName = "ADBE Vector Shape - Ellipse" then "ellipse"
  else if matchName = "ADBE Vector Shape - Star" then "polystar"
  else if matchName = "ADBE Vector Filter - Merge" then "merge"
  else if matchName = "ADBE Vector Filter - Repeater" then "repeater"
  else if matchName = "ADBE Vector Filter - RC" then "roundCorners"
  else "unknown"

/-- `extractShapeElementProperties(shapeElement)`: extract an
`AnimatedProperty` for every readable sub-property whose value type is
neither `NO_VALUE` nor `CUSTOM_VALUE`.  The frame rate is the module-level
`_shapeExtractFrameRate` global, threaded here as a parameter. -/
def extractShapeElementProperties (g : ElemGroup) (fr : ℚ) :
    List (Option AnimatedProperty) :=
  match g with
  | .inaccessible => []
  | .elems slots =>
    slots.filterMap fun s =>
      match s with
      | none => none
      | some hp =>
        match hp.propertyValueType with
        | none => none
        | some t =>
          if t ≠ .NO_VALUE ∧ t ≠ .CUSTOM_VALUE then
            some (extractAnimatedProperty hp fr)
          else none

/-- `extractGroupProperties(transformGroup)`: the source duplicates the body
of `extractShapeElementProperties` for group transforms. -/
def extractGroupProperties (g : ElemGroup) (fr : ℚ) :
    List (Option AnimatedProperty) :=
  match g with
  | .inaccessible => []
  | .elems slots =>
    slots.filterMap fun s =>
      match s with
      | none => none
      | some hp =>
        match hp.propertyValueType with
        | none => none
        | some t =>
          if t ≠ .NO_VALUE ∧ t ≠ .CUSTOM_VALUE then
            some (extractAnimatedProperty hp fr)
          else none

/-- One node of the extracted shape data: `contents` is set for vector
groups (to `[]` when the contents fetch throws, absent when it returns
null); `properties` is set from the group transform for vector groups and
from the element's own sub-properties otherwise. -/
inductive ShapeData where
  | mk (name matchName type : String) (contents : Option (List ShapeData))
      (properties : Option (List (Option AnimatedProperty)))

/-- The `contents` field of an extracted shape node. -/
def ShapeData.contents : ShapeData → Option (List ShapeData)
  | .mk _ _ _ c _ => c

mutual
/-- `extractShapeGroup(propertyGroup)`: enumerate the group's child slots,
skipping unreadable and null children; a `"ADBE Vector Group"` child
recurses into its `"ADBE Vectors Group"` contents — with no depth guard of
any kind — and extracts its transform-group properties, while any other
child extracts its own animatable sub-properties. -/
def extractShapeGroup (pg : ShapePG) (fr : ℚ) : List ShapeData :=
  match pg with
  | .inaccessible => []
  | .grp children => extractShapeSlots children fr

/-- The `for` loop of `extractShapeGroup` over the remaining child slots. -/
def extractShapeSlots (children : List ShapeSlot) (fr : ℚ) : List ShapeData :=
  match children with
  | [] => []
  | .skip :: rest => extractShapeSlots rest fr
  | .child c :: rest => extractShapeChild c fr :: extractShapeSlots rest fr

/-- The per-child body of `extractShapeGroup`'s loop. -/
def extractShapeChild (c : ShapeChildNode) (fr : ℚ) : ShapeData :=
  match c with
  | .mk name matchName vectorsGroup transformGroup elementGroup =>
    if matchName = "ADBE Vector Group" then
      .mk name matchName (getShapeType matchName)
        (match vectorsGroup with
         | .vthrow => some []
         | .vnull => none
         | .vgrp pg' => some (extractShapeGroup pg' fr))
        (match transformGroup with
         | .tthrow => some []
         | .tnull => none
         | .tgrp tg => some (extractGroupProperties tg fr))
    else
      .mk name matchName (getShapeType matchName) none
        (some (extractShapeElementProperties elementGroup fr))
end

/-- The outcome of fetching a shape layer's `"ADBE Root Vectors Group"`. -/
inductive RootVectorsFetch where
  | rthrow
  | rnull
  | rgrp (pg : ShapePG)

/-- A shape layer, restricted to the single read `extractShapeData`
performs on it. -/
structure ShapeLayerHost where
  rootVectorsGroup : RootVectorsFetch

/-- `extractShapeData(shapeLayer, frameRate)`: set the module-level frame
rate global when a positive rate is supplied (30 otherwise) and extract the
root vectors group.  The global is modelled by the threaded parameter. -/
def extractShapeData (layer : ShapeLayerHost) (frameRate : ℚ) :
    List ShapeData :=
  let fr := if 0 < frameRate then frameRate else 30
  match layer.rootVectorsGroup with
  | .rthrow => []
  | .rnull => []
  | .rgrp pg => extractShapeGroup pg fr

/-- Drill `n` levels of nested `contents` down an extracted shape list,
following the first child each time.  Succeeds exactly when a reported
node chain of that depth exists. -/
def drill : Nat → List ShapeData → Option (List ShapeData)
  | 0, l => some l
  | n + 1, l =>
    match l.head? with
    | some d =>
      match d.contents with
      | some l' => drill n l'
      | none => none
    | none => none

/-- A shape-content chain whose vector groups nest `n + 1` levels deep:
`chainPG 0` is a group with one vector-group child whose contents are an
empty (but accessible) group, and `chainPG (n+1)` wraps `chainPG n` in one
more vector group. -/
def chainPG : Nat → ShapePG
  | 0 => .grp [.child (.mk "g" "ADBE Vector Group" (.vgrp (.grp []))
      .tnull .inaccessible)]
  | n + 1 => .grp [.child (.mk "g" "ADBE Vector Group" (.vgrp (chainPG n))
      .tnull .inaccessible)]

/-! ## Animation summary aggregation (`extractors/layer.jsx`,
`computeAnimationSummary`) -/

/-- A `PropertySummary` digest entry. -/
structure PropertySummary where
  name : Option String
  keyframeCount : Nat
  startValue : JSValue
  endValue : JSValue
  duration : ℚ
  delay : ℚ
  easing : Option CubicBezier
deriving DecidableEq, Repr

/-- The `AnimationSummary` accumulator. -/
structure AnimationSummary where
  isAnimated : Bool
  animatedPropertyCount : Nat
  totalKeyframes : Nat
  properties : List PropertySummary
deriving DecidableEq, Repr

/-- The `PropertySummary` record `checkProp` pushes for a qualifying
property with keyframe list `ks` (the source indexes `keyframes[0]` and
`keyframes[length-1]`, defined because qualifying lists have length ≥ 2;
the easing is the first keyframe's segment bezier when its temporal easing
is present, null otherwise). -/
def mkPropertySummary (pr : AnimatedProperty) (ks : List Keyframe) :
    PropertySummary :=
  let firstKf := ks.headI
  let lastKf := ks.getLastI
  { name := pr.name
    keyframeCount := ks.length
    startValue := firstKf.value
    endValue := lastKf.value
    duration := lastKf.time - firstKf.time
    delay := firstKf.time
    easing :=
      match firstKf.temporalEasing with
      | some te => te.cubicBezier
      | none => none }

/-- `checkProp(prop)`: accumulate one property into the summary.  A missing
property, a non-animated property, a property without a keyframes field, or
one with fewer than 2 keyframes is ignored; otherwise the summary is marked
animated, the counters advance and a `PropertySummary` is appended. -/
def checkProp (s : AnimationSummary) (prop : Option AnimatedProperty) :
    AnimationSummary :=
  match prop with
  | none => s
  | some pr =>
    if pr.isAnimated = false then s
    else
      match pr.keyframes with
      | none => s
      | some ks =>
        if ks.length < 2 then s
        else
          { isAnimated := true
            animatedPropertyCount := s.animatedPropertyCount + 1
            totalKeyframes := s.totalKeyframes + ks.length
            properties := s.properties ++ [mkPropertySummary pr ks] }

/-- The transform descriptor built by `extractTransform`: a field is `none`
when it was never set or set to null. -/
structure SeparatedPosition where
  x : Option AnimatedProperty
  y : Option AnimatedProperty
  z : Option AnimatedProperty

/-- The transform block of a layer descriptor. -/
structure TransformData where
  anchorPoint : Option AnimatedProperty
  position : Option AnimatedProperty
  scale : Option AnimatedProperty
  rotation : Option AnimatedProperty
  opacity : Option AnimatedProperty
  rotationX : Option AnimatedProperty
  rotationY : Option AnimatedProperty
  rotationZ : Option AnimatedProperty
  orientation : Option AnimatedProperty
  positionSeparated : Option SeparatedPosition

/-- A layer descriptor, restricted to the field `computeAnimationSummary`
reads (`layerData.transform`; every other field of the descriptor built by
`extractLayer` is irrelevant to the summary). -/
structure LayerData where
  transform : Option TransformData

/-- The properties `computeAnimationSummary` passes to `checkProp`, in
order: the five standard slots, the 3D rotation axes when present, then the
separated-position dimensions (x and y unconditionally, z when present). -/
def scannedProps (t : TransformData) : List (Option AnimatedProperty) :=
  [t.anchorPoint, t.position, t.scale, t.rotation, t.opacity]
    ++ (match t.rotationX with | some r => [some r] | none => [])
    ++ (match t.rotationY with | some r => [some r] | none => [])
    ++ (match t.rotationZ with | some r => [some r] | none => [])
    ++ (match t.positionSeparated with
        | some sp => [sp.x, sp.y] ++
            (match sp.z with | some z => [some z] | none => [])
        | none => [])

/-- `computeAnimationSummary(layerData)`: fold `checkProp` over the scanned
transform properties, starting from the empty summary; a missing transform
yields the empty summary. -/
def computeAnimationSummary (ld : LayerData) : AnimationSummary :=
  let summary : AnimationSummary :=
    { isAnimated := false
      animatedPropertyCount := 0
      totalKeyframes := 0
      properties := [] }
  match ld.transform with
  | none => summary
  | some t => (scannedProps t).foldl checkProp summary

/-- Whether a descriptor has a keyframe list of length at least 2 (the
value-shape part of `checkProp`'s qualification test). -/
def hasTwoKeyframes (pr : AnimatedProperty) : Bool :=
  match pr.keyframes with
  | some ks => 2 ≤ ks.length
  | none => false

/-- The qualification test of `checkProp`: animated, keyframes present,
length at least 2. -/
def qualifiesForSummary (pr : AnimatedProperty) : Bool :=
  pr.isAnimated && hasTwoKeyframes pr

/-- The summary entry generated for a qualifying descriptor. -/
def summaryEntry (pr : AnimatedProperty) : PropertySummary :=
  mkPropertySummary pr (pr.keyframes.getD [])

/-! ## Concrete instances used by witnesses and counterexamples -/

/-- A deliberately self-referential host graph: node 0 is a group whose
first child is the leaf node 1 and whose second child is node 0 itself. -/
def cyclicGraph : WalkGraph := fun id =>
  if id = 0 then
    { numProperties := .num 2
      child := fun i =>
        if i = 1 then .cnode 1 else if i = 2 then .cnode 0 else .cthrows
      propertyType := some false }
  else
    { numProperties := .pthrows
      child := fun _ => .cthrows
      propertyType := some true }

/-- Keyframe at `t = 0`, value `0`, Easy-Ease outgoing handle (speed 0,
influence 33.333…%), whose outgoing segment converted to the bezier
`(0.3333, 0, 0.6667, 1)`. -/
def kfEaseStart : Keyframe :=
  { index := 1
    time := 0
    frame := 0
    value := .num 0
    interpolationType := some ("BEZIER", "BEZIER")
    temporalEasing := some
      { inSpeed := [0], inInfluence := [100/3]
        outSpeed := [0], outInfluence := [100/3]
        cubicBezier := some ⟨3333/10000, 0, 6667/10000, 1⟩ }
    spatialEasing := none
    roving := none
    temporalAutoBezier := none
    temporalContinuous := none
    spatialAutoBezier := none
    spatialContinuous := none }

/-- Keyframe at `t = 1`, value `100`, last of its sequence (no outgoing
segment bezier). -/
def kfEaseEnd : Keyframe :=
  { index := 2
    time := 1
    frame := 30
    value := .num 100
    interpolationType := some ("BEZIER", "BEZIER")
    temporalEasing := some
      { inSpeed := [0], inInfluence := [100/3]
        outSpeed := [0], outInfluence := [100/3]
        cubicBezier := none }
    spatialEasing := none
    roving := none
    temporalAutoBezier := none
    temporalContinuous := none
    spatialAutoBezier := none
    spatialContinuous := none }

/-- An animated opacity descriptor with the two Easy-Ease keyframes. -/
def opacityEaseProp : AnimatedProperty :=
  { name := some "Opacity"
    matchName := some "ADBE Opacity"
    isAnimated := true
    dimensions := 1
    keyframes := some [kfEaseStart, kfEaseEnd]
    staticValue := none
    expression := none }

/-- A transform block whose only present property is the animated opacity. -/
def transformOpacityOnly : TransformData :=
  { anchorPoint := none
    position := none
    scale := none
    rotation := none
    opacity := some opacityEaseProp
    rotationX := none
    rotationY := none
    rotationZ := none
    orientation := none
    positionSeparated := none }

/-- A layer descriptor carrying only the opacity-animated transform. -/
def layerOpacityOnly : LayerData := { transform := some transformOpacityOnly }

/-- A host property whose reads all fail. -/
def hostBlank : HostProperty :=
  { name := none
    matchName := none
    propertyValueType := none
    isTimeVarying := none
    expressionEnabled := none
    expression := none
    value := none
    numKeys := 0
    keyTime := fun _ => none
    keyValue := fun _ => none
    keyInInterpolationType := fun _ => none
    keyOutInterpolationType := fun _ => none
    keyInTemporalEase := fun _ => none
    keyOutTemporalEase := fun _ => none
    keyInSpatialTangent := fun _ => none
    keyOutSpatialTangent := fun _ => none
    keyRoving := fun _ => none
    keyTemporalAutoBezier := fun _ => none
    keyTemporalContinuous := fun _ => none
    keySpatialAutoBezier := fun _ => none
    keySpatialContinuous := fun _ => none }

/-- A host property that reports itself time-varying (as an
expression-driven property does) while exposing zero keyframes. -/
def hostExprNoKeys : HostProperty :=
  { hostBlank with
    name := some "Opacity"
    matchName := some "ADBE Opacity"
    propertyValueType := some .OneD
    isTimeVarying := some true
    expressionEnabled := some true
    expression := some "time*100"
    value := some (.num 50)
    numKeys := 0 }

/-- A static host property with value 7. -/
def hostStaticC2 : HostProperty :=
  { hostBlank with
    name := some "Scale"
    matchName := some "ADBE Scale"
    propertyValueType := some .OneD
    isTimeVarying := some false
    expressionEnabled := some false
    value := some (.num 7)
    numKeys := 0 }

/-- The descriptor `extractAnimatedProperty` produces for `hostStaticC2`. -/
def staticPropDescriptor : AnimatedProperty :=
  { name := some "Scale"
    matchName := some "ADBE Scale"
    isAnimated := false
    dimensions := 1
    keyframes := none
    staticValue := some (.num 7)
    expression := none }

/-- An animated host property with two readable keyframes at times 0 and 1. -/
def hostTwoKeys : HostProperty :=
  { hostBlank with
    name := some "Opacity"
    matchName := some "ADBE Opacity"
    propertyValueType := some .OneD
    isTimeVarying := some true
    numKeys := 2
    keyTime := fun i => if i = 1 then some 0 else if i = 2 then some 1 else none
    keyValue := fun i =>
      if i = 1 then some (.num 0) else if i = 2 then some (.num 100) else none }

/-- An animated host property with two keyframes whose first `keyTime` read
throws. -/
def hostSkipFirst : HostProperty :=
  { hostBlank with
    name := some "Opacity"
    matchName := some "ADBE Opacity"
    propertyValueType := some .OneD
    isTimeVarying := some true
    numKeys := 2
    keyTime := fun i => if i = 2 then some 0 else none }

/-- A two-dimensional Easy-Ease handle array: speed 0, influence 33.333…%
on both dimensions. -/
def easyEase2 : List Ease := [⟨0, 100/3⟩, ⟨0, 100/3⟩]

/-- A two-dimensional degenerate handle array: speed 0, influence 0 on both
dimensions. -/
def zeroEase2 : List Ease := [⟨0, 0⟩, ⟨0, 0⟩]

/-! ## Lemmas about the summary aggregator -/

theorem checkProp_not_qualifies (s : AnimationSummary) (pr : AnimatedProperty)
    (h : qualifiesForSummary pr = false) : checkProp s (some pr) = s := by
  unfold checkProp
  unfold qualifiesForSummary hasTwoKeyframes at h
  rcases hA : pr.isAnimated with _ | _
  · simp [hA]
  · rcases hK : pr.keyframes with _ | ks
    · simp [hA, hK]
    · rw [hA, hK] at h
      simp only [Bool.true_and, decide_eq_false_iff_not] at h
      simp [hA, hK, Nat.lt_of_not_le h]

theorem checkProp_qualifies (s : AnimationSummary) (pr : AnimatedProperty)
    (h : qualifiesForSummary pr = true) :
    checkProp s (some pr) =
      { isAnimated := true
        animatedPropertyCount := s.animatedPropertyCount + 1
        totalKeyframes := s.totalKeyframes + (pr.keyframes.getD []).length
        properties := s.properties ++ [summaryEntry pr] } := by
  unfold checkProp
  unfold qualifiesForSummary hasTwoKeyframes at h
  rcases hA : pr.isAnimated with _ | _
  · rw [hA] at h; simp at h
  · rcases hK : pr.keyframes with _ | ks
    · rw [hA, hK] at h; simp at h
    · rw [hA, hK] at h
      simp only [Bool.true_and, decide_eq_true_eq] at h
      simp [hA, hK, Nat.not_lt.mpr h, summaryEntry, Nat.lt_irrefl]

theorem foldl_checkProp_spec (l : List (Option AnimatedProperty)) :
    ∀ s : AnimationSummary,
      (l.foldl checkProp s).properties
          = s.properties ++
            (((l.filterMap id).filter qualifiesForSummary).map summaryEntry)
      ∧ (l.foldl checkProp s).animatedPropertyCount
          = s.animatedPropertyCount +
            ((l.filterMap id).filter qualifiesForSummary).length
      ∧ (l.foldl checkProp s).totalKeyframes
          = s.totalKeyframes +
            (((l.filterMap id).filter qualifiesForSummary).map
              (fun pr => (pr.keyframes.getD []).length)).sum
      ∧ (l.foldl checkProp s).isAnimated
          = (s.isAnimated ||
             !((l.filterMap id).filter qualifiesForSummary).isEmpty) := by
  induction l with
  | nil => intro s; simp
  | cons hd tl ih =>
    intro s
    rcases hd with _ | pr
    · simpa using ih s
    · rcases hq : qualifiesForSummary pr with _ | _
      · have hstep : checkProp s (some pr) = s := checkProp_not_qualifies s pr hq
        simpa [hq, hstep] using ih s
      · have hstep := checkProp_qualifies s pr hq
        rw [List.foldl_cons, hstep]
        obtain ⟨h1, h2, h3, h4⟩ := ih
          { isAnimated := true
            animatedPropertyCount := s.animatedPropertyCount + 1
            totalKeyframes := s.totalKeyframes + (pr.keyframes.getD []).length
            properties := s.properties ++ [summaryEntry pr] }
        refine ⟨?_, ?_, ?_, ?_⟩
        · rw [h1]; simp [hq, List.append_assoc]
        · rw [h2]; simp [hq]; omega
        · rw [h3]; simp [hq]; omega
        · rw [h4]; simp [hq]

/-- **C10.** Every summary returned by `computeAnimationSummary` is
internally consistent: `animatedPropertyCount` equals `properties.length`,
`totalKeyframes` equals the sum of `keyframeCount` over the entries of
`properties`, and `isAnimated` is true exactly when `animatedPropertyCount`
is greater than zero. -/
theorem spec_C10_summary_consistency (ld : LayerData) :
    (computeAnimationSummary ld).animatedPropertyCount
        = (computeAnimationSummary ld).properties.length
    ∧ (computeAnimationSummary ld).totalKeyframes
        = ((computeAnimationSummary ld).properties.map
            PropertySummary.keyframeCount).sum
    ∧ ((computeAnimationSummary ld).isAnimated = true
        ↔ 0 < (computeAnimationSummary ld).animatedPropertyCount) := by
  unfold computeAnimationSummary
  rcases ld.transform with _ | t
  · simp
  · obtain ⟨h1, h2, h3, h4⟩ := foldl_checkProp_spec (scannedProps t)
      { isAnimated := false
        animatedPropertyCount := 0
        totalKeyframes := 0
        properties := [] }
    simp only
    rw [h1, h2, h3, h4]
    have hkc : ∀ pr : AnimatedProperty,
        (summaryEntry pr).keyframeCount = (pr.keyframes.getD []).length :=
      fun _ => rfl
    refine ⟨by simp, ?_, ?_⟩
    · simp [List.map_map, Function.comp_def, hkc]
    · simp [List.isEmpty_iff, List.length_pos_iff_ne_nil]

/-- **C8.** For a layer descriptor whose transform block is present and whose
scanned property descriptors are extractor-shaped (a keyframes field is only
present on animated descriptors), `computeAnimationSummary` emits one
`PropertySummary` entry exactly for each scanned transform property (the
five standard slots plus 3D-rotation and separated-position variants) whose
keyframe list has length at least 2 — in scan order, with `keyframeCount`
the list length, `startValue`/`endValue` the first/last keyframe's value,
`duration` the last minus the first keyframe time, `delay` the first
keyframe's time, and `easing` the first keyframe's segment bezier — and
`isAnimated` is true iff at least one qualifying property was found (so a
layer with zero qualifying properties yields an empty `properties` list and
`isAnimated = false`). -/
theorem spec_C8_animation_summary (ld : LayerData) (t : TransformData)
    (ht : ld.transform = some t)
    (hwf : ∀ pr ∈ (scannedProps t).filterMap id,
        pr.keyframes.isSome = true → pr.isAnimated = true) :
    (computeAnimationSummary ld).properties
        = (((scannedProps t).filterMap id).filter hasTwoKeyframes).map
            summaryEntry
    ∧ ((computeAnimationSummary ld).isAnimated = true
        ↔ ((scannedProps t).filterMap id).filter hasTwoKeyframes ≠ [])
    ∧ (∀ pr ∈ (scannedProps t).filterMap id, ∀ ks, pr.keyframes = some ks →
        summaryEntry pr =
          { name := pr.name
            keyframeCount := ks.length
            startValue := ks.headI.value
            endValue := ks.getLastI.value
            duration := ks.getLastI.time - ks.headI.time
            delay := ks.headI.time
            easing :=
              match ks.headI.temporalEasing with
              | some te => te.cubicBezier
              | none => none }) := by
  have hfilter : ((scannedProps t).filterMap id).filter qualifiesForSummary
      = ((scannedProps t).filterMap id).filter hasTwoKeyframes := by
    apply List.filter_congr
    intro pr hpr
    rcases h2 : hasTwoKeyframes pr with _ | _
    · unfold qualifiesForSummary
      simp [h2]
    · have hsome : pr.keyframes.isSome = true := by
        unfold hasTwoKeyframes at h2
        rcases hk : pr.keyframes with _ | ks
        · rw [hk] at h2; simp at h2
        · simp [hk]
      have hA := hwf pr hpr hsome
      unfold qualifiesForSummary
      simp [h2, hA]
  unfold computeAnimationSummary
  rw [ht]
  obtain ⟨h1, _, _, h4⟩ := foldl_checkProp_spec (scannedProps t)
    { isAnimated := false
      animatedPropertyCount := 0
      totalKeyframes := 0
      properties := [] }
  refine ⟨?_, ?_, ?_⟩
  · simpa [hfilter] using h1
  · rw [h4, hfilter]
    simp [List.isEmpty_iff]
  · intro pr _ ks hks
    simp [summaryEntry, mkPropertySummary, hks]

/-- Witness for C8: the layer with a single animated opacity property
(keyframes at `t = 0`, value 0 and `t = 1`, value 100, Easy-Ease segment)
summarises to exactly one entry, and the entry list is the one the theorem
describes. -/
theorem spec_C8_animation_summary_witness :
    (computeAnimationSummary layerOpacityOnly).properties
      = (((scannedProps transformOpacityOnly).filterMap id).filter
          hasTwoKeyframes).map summaryEntry :=
  (spec_C8_animation_summary layerOpacityOnly transformOpacityOnly rfl
    (by
      intro pr hpr _
      have hlist : (scannedProps transformOpacityOnly).filterMap id
          = [opacityEaseProp] := rfl
      rw [hlist] at hpr
      simp only [List.mem_cons, List.not_mem_nil, or_false] at hpr
      subst hpr
      rfl)).1

/-! ## Lemmas about the property walker -/

theorem walkGo_deep (g : WalkGraph) (id depth fuel : Nat)
    (h : PROPERTY_WALK_MAX_DEPTH < depth) : walkGo g id depth fuel = [] := by
  cases fuel with
  | zero => rfl
  | succ n => simp only [walkGo, if_pos h]

theorem walkGo_mem_depth_le (g : WalkGraph) :
    ∀ (fuel id depth : Nat) (pd : Nat × Nat),
      pd ∈ walkGo g id depth fuel → pd.2 ≤ PROPERTY_WALK_MAX_DEPTH := by
  intro fuel
  induction fuel with
  | zero => intro id depth pd h; simp [walkGo] at h
  | succ n ih =>
    intro id depth pd h
    simp only [walkGo] at h
    split at h
    · simp at h
    next hdeep =>
      split at h
      · simp at h
      · simp at h
      · split at h
        · simp at h
        · rw [List.mem_flatMap] at h
          obtain ⟨k, -, hk⟩ := h
          split at hk
          · simp at hk
          · simp at hk
          · split at hk
            · simp only [List.mem_singleton] at hk
              subst hk; exact Nat.le_of_not_lt hdeep
            · exact ih _ (depth + 1) pd hk
            · split at hk
              · split at hk
                · exact ih _ (depth + 1) pd hk
                · simp only [List.mem_singleton] at hk
                  subst hk; exact Nat.le_of_not_lt hdeep
              · simp only [List.mem_singleton] at hk
                subst hk; exact Nat.le_of_not_lt hdeep
              · simp at hk

/-- **C5.** `walkPropertyGroup` terminates on every input — including the
self-referential graph `cyclicGraph`, on which it returns exactly the leaf
visits of depths `0..PROPERTY_WALK_MAX_DEPTH` — a call at depth greater
than `PROPERTY_WALK_MAX_DEPTH` (20) abandons its whole subtree without
invoking the callback, and every callback invocation carries a depth at
most the bound.  (Totality of the walk on arbitrary, possibly cyclic,
graphs is expressed by `walkPropertyGroup` being a total function whose
recursion budget `walkGo_fuel` is justified by the depth guard.) -/
theorem spec_C5_walker_depth_guard :
    (∀ (g : WalkGraph) (id depth : Nat), PROPERTY_WALK_MAX_DEPTH < depth →
        walkPropertyGroup g id depth = [])
    ∧ (∀ (g : WalkGraph) (id depth : Nat) (pd : Nat × Nat),
        pd ∈ walkPropertyGroup g id depth → pd.2 ≤ PROPERTY_WALK_MAX_DEPTH)
    ∧ walkPropertyGroup cyclicGraph 0 0
        = (List.range (PROPERTY_WALK_MAX_DEPTH + 1)).map (fun d => (1, d)) := by
  refine ⟨?_, ?_, ?_⟩
  · intro g id depth h
    exact walkGo_deep g id depth _ h
  · intro g id depth pd h
    exact walkGo_mem_depth_le g _ id depth pd h
  · decide

/-- Witness for C5: the depth guard empties a call just past the bound on
the self-referential graph, and the visit `(1, 0)` recorded by that same
graph's walk is within the bound. -/
theorem spec_C5_walker_depth_guard_witness :
    walkPropertyGroup cyclicGraph 0 (PROPERTY_WALK_MAX_DEPTH + 1) = []
    ∧ ((1, 0) : Nat × Nat).2 ≤ PROPERTY_WALK_MAX_DEPTH :=
  ⟨spec_C5_walker_depth_guard.1 cyclicGraph 0 (PROPERTY_WALK_MAX_DEPTH + 1)
      (by decide),
   spec_C5_walker_depth_guard.2.1 cyclicGraph 0 0 (1, 0)
      (by rw [spec_C5_walker_depth_guard.2.2]; decide)⟩

/-! ## Lemmas about the shape extractor -/

theorem chainPG_drill (fr : ℚ) :
    ∀ n : Nat, drill (n + 1) (extractShapeGroup (chainPG n) fr) = some [] := by
  intro n
  induction n with
  | zero =>
    simp [chainPG, extractShapeGroup, extractShapeSlots, extractShapeChild,
      drill, ShapeData.contents]
  | succ m ih =>
    simp only [chainPG, extractShapeGroup, extractShapeSlots,
      extractShapeChild, if_pos rfl]
    simp only [drill, List.head?, ShapeData.contents]
    exact ih

/-- **C3 (amended).** The recursive shape-content enumeration has **no**
depth bound: for every `n`, extracting a vector-group chain nested `n + 1`
levels deep (through `extractShapeData`) reports the innermost group at
nesting depth `n + 1`, however far past `PROPERTY_WALK_MAX_DEPTH` that is.
Termination on finite (tree-shaped) content is by structural recursion —
the source, having no guard, would not terminate on self-referential
content. -/
theorem spec_C3_shape_depth_unbounded (n : Nat) (fr : ℚ) :
    drill (n + 1)
      (extractShapeData { rootVectorsGroup := .rgrp (chainPG n) } fr)
      = some [] := by
  unfold extractShapeData
  exact chainPG_drill _ n

/-- Counterexample for C3: the chain nested `PROPERTY_WALK_MAX_DEPTH + 2`
(= 22) levels deep is reported in full — `drill` reaches nesting depth 22 in
the extracted data — although the claim asserts subtrees deeper than the
bound (20) are abandoned without being reported. -/
theorem spec_C3_counterexample :
    PROPERTY_WALK_MAX_DEPTH + 2 > PROPERTY_WALK_MAX_DEPTH
    ∧ drill (PROPERTY_WALK_MAX_DEPTH + 2)
        (extractShapeData
          { rootVectorsGroup := .rgrp (chainPG (PROPERTY_WALK_MAX_DEPTH + 1)) }
          30)
        = some [] := by
  constructor
  · omega
  · unfold extractShapeData
    exact chainPG_drill _ (PROPERTY_WALK_MAX_DEPTH + 1)

/-! ## C2: shape of the animated-property descriptor -/

/-- **C2 (amended).** Every descriptor returned by
`extractAnimatedProperty` satisfies: if `isAnimated` is true then the
`keyframes` field is present (possibly **empty** — the length ≥ 1 part of
the claim fails, see the counterexample) and `staticValue` is absent; if
`isAnimated` is false then `staticValue` is present and `keyframes` is
absent. -/
theorem spec_C2_descriptor_shape (p : HostProperty) (fr : ℚ)
    (d : AnimatedProperty) (h : extractAnimatedProperty p fr = some d) :
    (d.isAnimated = true →
        (∃ ks, d.keyframes = some ks) ∧ d.staticValue = none)
    ∧ (d.isAnimated = false →
        (∃ v, d.staticValue = some v) ∧ d.keyframes = none) := by
  unfold extractAnimatedProperty at h
  split at h
  · exact absurd h (by simp)
  · rw [Option.some_inj] at h
    subst h
    constructor
    · intro hA
      simp only at hA
      refine ⟨⟨extractKeyframes p fr, ?_⟩, ?_⟩ <;> simp [hA]
    · intro hA
      simp only at hA
      refine ⟨⟨getPropertyValue p, ?_⟩, ?_⟩ <;> simp [hA]

/-- Counterexample for C2 as stated: on a host property that reports itself
time-varying but has zero keyframes (as an expression-driven property
does), the returned descriptor has `isAnimated = true` with an **empty**
keyframes list, refuting `keyframes.length ≥ 1`. -/
theorem spec_C2_counterexample :
    ¬ ∀ d : AnimatedProperty, extractAnimatedProperty hostExprNoKeys 30 = some d →
        d.isAnimated = true → ∃ ks, d.keyframes = some ks ∧ 1 ≤ ks.length := by
  intro h
  obtain ⟨ks, hks, hlen⟩ := h
    { name := some "Opacity"
      matchName := some "ADBE Opacity"
      isAnimated := true
      dimensions := 1
      keyframes := some []
      staticValue := none
      expression := some "time*100" } rfl rfl
  simp only [Option.some_inj] at hks
  rw [← hks] at hlen
  simp at hlen

/-- Witness for C2: applying the amended theorem to the static property
`hostStaticC2` yields its static-value branch. -/
theorem spec_C2_descriptor_shape_witness :
    (∃ v, staticPropDescriptor.staticValue = some v)
    ∧ staticPropDescriptor.keyframes = none :=
  (spec_C2_descriptor_shape hostStaticC2 30 staticPropDescriptor rfl).2 rfl

/-! ## C4: keyframe sequence invariants -/

theorem extractKeyframes_map_index_eq (p : HostProperty) (fr : ℚ) :
    (extractKeyframes p fr).map Keyframe.index
      = (List.range' 1 p.numKeys).filter (fun i => (p.keyTime i).isSome) := by
  unfold extractKeyframes
  generalize List.range' 1 p.numKeys = l
  induction l with
  | nil => rfl
  | cons a tl ih =>
    cases h : p.keyTime a with
    | none => simp [List.filterMap_cons, h, ih]
    | some t =>
      simpa [List.filterMap_cons, h, buildKeyframe] using ih

/-- **C4 (amended).** For every keyframe list returned by
`extractKeyframes`: the `index` fields are exactly the host indices in
`1..numKeys` whose `keyTime` read succeeded, in increasing order; the
`time` values are non-decreasing in list order **provided** the host's
successful time reads are monotone in the host index; and when no
`keyTime` read fails the index fields are exactly `1..N` in order (with
`N = numKeys` the number of returned keyframes).  When a `keyTime` read
does fail, the returned indices keep their host values and are **not**
renumbered contiguously — the "exactly 1..N" part of the claim fails, see
the counterexample. -/
theorem spec_C4_keyframe_sequence (p : HostProperty) (fr : ℚ) :
    ((extractKeyframes p fr).map Keyframe.index
        = (List.range' 1 p.numKeys).filter (fun i => (p.keyTime i).isSome))
    ∧ ((∀ i j ti tj, i ≤ j → p.keyTime i = some ti → p.keyTime j = some tj →
          ti ≤ tj) →
        (extractKeyframes p fr).Pairwise (fun a b => a.time ≤ b.time))
    ∧ ((∀ i, 1 ≤ i → i ≤ p.numKeys → (p.keyTime i).isSome = true) →
        (extractKeyframes p fr).map Keyframe.index = List.range' 1 p.numKeys) := by
  refine ⟨extractKeyframes_map_index_eq p fr, ?_, ?_⟩
  · intro hmono
    unfold extractKeyframes
    refine List.Pairwise.filterMap _ ?_ (List.pairwise_lt_range' 1 p.numKeys)
    intro i j hij kf hkf kf' hkf'
    rw [Option.mem_def, Option.map_eq_some'] at hkf hkf'
    obtain ⟨ti, hti, rfl⟩ := hkf
    obtain ⟨tj, htj, rfl⟩ := hkf'
    exact hmono i j ti tj (Nat.le_of_lt hij) hti htj
  · intro hall
    rw [extractKeyframes_map_index_eq p fr]
    rw [List.filter_eq_self]
    intro i hi
    rw [List.mem_range'_1] at hi
    exact hall i hi.1 (by omega)

/-- Counterexample for C4 as stated: on a host with two keyframes whose
first `keyTime` read throws, the single returned keyframe keeps host index
2, so the index fields are `[2]`, not `1..N = [1]`. -/
theorem spec_C4_counterexample :
    (extractKeyframes hostSkipFirst 30).map Keyframe.index
      ≠ List.range' 1 (extractKeyframes hostSkipFirst 30).length := by
  intro hEq
  have h1 : (extractKeyframes hostSkipFirst 30).map Keyframe.index = [2] := rfl
  have h2 : (extractKeyframes hostSkipFirst 30).length = 1 := rfl
  rw [h1, h2] at hEq
  simp [List.range'] at hEq

/-- Witness for C4: on the fully readable two-keyframe host, the indices
are exactly `1..2` and the times are sorted. -/
theorem spec_C4_keyframe_sequence_witness :
    ((extractKeyframes hostTwoKeys 30).map Keyframe.index = List.range' 1 2)
    ∧ (extractKeyframes hostTwoKeys 30).Pairwise (fun a b => a.time ≤ b.time) := by
  have hC4 := spec_C4_keyframe_sequence hostTwoKeys 30
  constructor
  · exact hC4.2.2 (by
      intro i h1 h2
      have : i = 1 ∨ i = 2 := by
        have : hostTwoKeys.numKeys = 2 := rfl
        omega
      rcases this with rfl | rfl <;> rfl)
  · refine hC4.2.1 ?_
    have key : ∀ k tk, hostTwoKeys.keyTime k = some tk →
        (k = 1 ∧ tk = 0) ∨ (k = 2 ∧ tk = 1) := by
      intro k tk h
      by_cases h1 : k = 1
      · subst h1
        simp [hostTwoKeys, hostBlank] at h
        exact Or.inl ⟨rfl, h.symm⟩
      · by_cases h2 : k = 2
        · subst h2
          simp [hostTwoKeys, hostBlank] at h
          exact Or.inr ⟨rfl, h.symm⟩
        · exfalso
          simp [hostTwoKeys, hostBlank, h1, h2] at h
    intro i j ti tj hij hti htj
    rcases key i ti hti with ⟨rfl, rfl⟩ | ⟨rfl, rfl⟩ <;>
      rcases key j tj htj with ⟨rfl, rfl⟩ | ⟨rfl, rfl⟩
    · norm_num
    · norm_num
    · omega
    · norm_num

/-! ## Lemmas about the easing converters -/

theorem clamp01_mem (q : ℚ) : 0 ≤ clamp01 q ∧ clamp01 q ≤ 1 :=
  ⟨le_max_left 0 _, max_le (by norm_num) (min_le_left 1 q)⟩

theorem round4_unit (q : ℚ) (h0 : 0 ≤ q) (h1 : q ≤ 1) :
    0 ≤ round4 q ∧ round4 q ≤ 1 := by
  unfold round4 jround
  constructor
  · apply div_nonneg _ (by norm_num)
    have h : (0 : ℚ) ≤ q * 10000 + 1/2 := by nlinarith
    exact_mod_cast Int.floor_nonneg.mpr h
  · rw [div_le_one (by norm_num)]
    have h : ⌊q * 10000 + 1/2⌋ ≤ 10000 := by
      have hle : q * 10000 + 1/2 ≤ 10000 + 1/2 := by nlinarith
      have := Int.floor_le_floor hle
      have hval : ⌊(10000 : ℚ) + 1/2⌋ = 10000 := by
        norm_num [Int.floor_eq_iff]
      omega
    exact_mod_cast h

theorem round4_clamp01_unit (q : ℚ) :
    0 ≤ round4 (clamp01 q) ∧ round4 (clamp01 q) ≤ 1 :=
  round4_unit (clamp01 q) (clamp01_mem q).1 (clamp01_mem q).2

theorem foldBest_spec (δ : Nat → ℚ) : ∀ len : Nat,
    (∀ i < len, |δ i| ≤ |(foldBest δ len).2|)
    ∧ (0 < len → (foldBest δ len).1 < len
        ∧ (foldBest δ len).2 = δ (foldBest δ len).1)
    ∧ (len = 0 → foldBest δ len = (0, 0)) := by
  intro len
  induction len with
  | zero =>
    refine ⟨by omega, by omega, fun _ => rfl⟩
  | succ n ih =>
    obtain ⟨ihmax, ihpos, ihzero⟩ := ih
    have hstep : foldBest δ (n + 1)
        = (if |(foldBest δ n).2| < |δ n| then (n, δ n) else foldBest δ n) := by
      unfold foldBest
      rw [List.range_succ, List.foldl_append]
      rfl
    by_cases hupd : |(foldBest δ n).2| < |δ n|
    · rw [hstep, if_pos hupd]
      refine ⟨?_, fun _ => ⟨Nat.lt_succ_self n, rfl⟩, by omega⟩
      intro i hi
      rcases Nat.lt_succ_iff_lt_or_eq.mp hi with hlt | rfl
      · exact le_trans (ihmax i hlt) (le_of_lt hupd)
      · exact le_refl _
    · rw [hstep, if_neg hupd]
      refine ⟨?_, ?_, by omega⟩
      · intro i hi
        rcases Nat.lt_succ_iff_lt_or_eq.mp hi with hlt | rfl
        · exact ihmax i hlt
        · exact not_lt.mp hupd
      · intro _
        by_cases hn : 0 < n
        · obtain ⟨h1, h2⟩ := ihpos hn
          exact ⟨Nat.lt_succ_of_lt h1, h2⟩
        · have hz : n = 0 := by omega
          subst hz
          have h0 : foldBest δ 0 = (0, 0) := rfl
          rw [h0] at hupd ⊢
          refine ⟨by omega, ?_⟩
          have habs : |δ 0| ≤ 0 := by simpa using not_lt.mp hupd
          have : δ 0 = 0 := abs_eq_zero.mp (le_antisymm habs (abs_nonneg _))
          simpa using this.symm

theorem findBestDimension_arr (a b : List ℚ) :
    findBestDimension (.arr a) (.arr b)
      = foldBest (fun i => b.getD i 0 - a.getD i 0) (min a.length b.length) :=
  rfl

theorem findBestDimension_arr_spec (a b : List ℚ) :
    (∀ i < min a.length b.length,
        |b.getD i 0 - a.getD i 0| ≤ |(findBestDimension (.arr a) (.arr b)).2|)
    ∧ (0 < min a.length b.length →
        (findBestDimension (.arr a) (.arr b)).1 < min a.length b.length
        ∧ (findBestDimension (.arr a) (.arr b)).2
            = b.getD (findBestDimension (.arr a) (.arr b)).1 0
              - a.getD (findBestDimension (.arr a) (.arr b)).1 0)
    ∧ (min a.length b.length = 0 →
        findBestDimension (.arr a) (.arr b) = (0, 0)) := by
  rw [findBestDimension_arr]
  exact foldBest_spec _ _

/-- The non-degenerate branch of the dimension-aware converter, for any
selected dimension `d` whose (clamped) ease entries are readable. -/
theorem convertEasingWithValues_dominant (oe ie : List Ease) (dur : ℚ)
    (s e : JSValue) (d : Nat) (dv : ℚ) (o i : Ease)
    (hbest : findBestDimension s e = (d, dv))
    (hguard : ¬(|dv| < 1/10000 ∨ dur < 1/10000))
    (ho : oe[min d (oe.length - 1)]? = some o)
    (hi : ie[min d (ie.length - 1)]? = some i) :
    EasingV2.convertEasingWithValues oe ie dur s e
      = some ⟨round4 (clamp01 (o.influence / 100)),
              round4 ((o.influence / 100) * (|o.speed| / |dv / dur|)),
              round4 (clamp01 (1 - i.influence / 100)),
              round4 (1 - (i.influence / 100) * (|i.speed| / |dv / dur|))⟩ := by
  unfold EasingV2.convertEasingWithValues
  rw [hbest]
  dsimp only
  rw [if_neg hguard, ho, hi]

/-- **C1 (amended).** For array-valued endpoints, the dimension-aware
`convertEasingWithValues` uses the value delta of the dominant dimension —
the first dimension whose absolute difference between `endValue` and
`startValue` is largest over the shared length — and converts the
speed/influence entries at that dimension's index (clamped into the ease
arrays; unclamped precisely when the ease arrays are long enough, as
hypothesised in the third part).  For the two-dimensional Easy-Ease
scenario (dimension 0 constant, dimension 1 changing by 100 over duration
1, speed-0/influence-33.333% handles) the returned bezier is
`(0.3333, 0, 0.6667, 1)`, which is not the identity fallback.  (As stated,
"the returned bezier is not the identity fallback" fails for degenerate
handles — see the counterexample — and the ease entries used are those at
`min(dimIndex, ease.length - 1)`, not always the dominant dimension's.) -/
theorem spec_C1_dominant_dimension :
    (∀ a b : List ℚ, ∀ i < min a.length b.length,
        |b.getD i 0 - a.getD i 0| ≤ |(findBestDimension (.arr a) (.arr b)).2|)
    ∧ (∀ a b : List ℚ, 0 < min a.length b.length →
        (findBestDimension (.arr a) (.arr b)).1 < min a.length b.length
        ∧ (findBestDimension (.arr a) (.arr b)).2
            = b.getD (findBestDimension (.arr a) (.arr b)).1 0
              - a.getD (findBestDimension (.arr a) (.arr b)).1 0)
    ∧ (∀ (oe ie : List Ease) (dur : ℚ) (a b : List ℚ),
        ¬(|(findBestDimension (.arr a) (.arr b)).2| < 1/10000
            ∨ dur < 1/10000) →
        ∀ h1 : (findBestDimension (.arr a) (.arr b)).1 < oe.length,
        ∀ h2 : (findBestDimension (.arr a) (.arr b)).1 < ie.length,
        EasingV2.convertEasingWithValues oe ie dur (.arr a) (.arr b)
          = some ⟨round4 (clamp01
                    ((oe.get ⟨(findBestDimension (.arr a) (.arr b)).1, h1⟩).influence / 100)),
                  round4 (((oe.get ⟨(findBestDimension (.arr a) (.arr b)).1, h1⟩).influence / 100)
                    * (|(oe.get ⟨(findBestDimension (.arr a) (.arr b)).1, h1⟩).speed|
                        / |(findBestDimension (.arr a) (.arr b)).2 / dur|)),
                  round4 (clamp01
                    (1 - (ie.get ⟨(findBestDimension (.arr a) (.arr b)).1, h2⟩).influence / 100)),
                  round4 (1 - ((ie.get ⟨(findBestDimension (.arr a) (.arr b)).1, h2⟩).influence / 100)
                    * (|(ie.get ⟨(findBestDimension (.arr a) (.arr b)).1, h2⟩).speed|
                        / |(findBestDimension (.arr a) (.arr b)).2 / dur|))⟩)
    ∧ EasingV2.convertEasingWithValues easyEase2 easyEase2 1
        (.arr [5, 0]) (.arr [5, 100])
        = some ⟨3333/10000, 0, 6667/10000, 1⟩
    ∧ (⟨3333/10000, 0, 6667/10000, 1⟩ : CubicBezier) ≠ identityBezier := by
  have hfbd : findBestDimension (.arr [5, 0]) (.arr [5, 100]) = (1, 100) := by
    rw [findBestDimension_arr]
    norm_num [foldBest, List.range_succ]
  refine ⟨?_, ?_, ?_, ?_, ?_⟩
  · intro a b i hi
    exact (findBestDimension_arr_spec a b).1 i hi
  · intro a b h
    exact (findBestDimension_arr_spec a b).2.1 h
  · intro oe ie dur a b hguard h1 h2
    apply convertEasingWithValues_dominant oe ie dur _ _
        (findBestDimension (.arr a) (.arr b)).1
        (findBestDimension (.arr a) (.arr b)).2
    · rfl
    · exact hguard
    · rw [Nat.min_eq_left (by omega)]
      rw [List.getElem?_eq_getElem h1]
      simp [List.get_eq_getElem]
    · rw [Nat.min_eq_left (by omega)]
      rw [List.getElem?_eq_getElem h2]
      simp [List.get_eq_getElem]
  · have hconv := convertEasingWithValues_dominant easyEase2 easyEase2 1
      (.arr [5, 0]) (.arr [5, 100]) 1 100 ⟨0, 100/3⟩ ⟨0, 100/3⟩ hfbd
      (by norm_num) rfl rfl
    rw [hconv]
    rw [Option.some_inj]
    simp only [CubicBezier.mk.injEq]
    refine ⟨?_, ?_, ?_, ?_⟩ <;>
      norm_num [clamp01, round4, jround, Int.floor_eq_iff]
  · intro h
    rw [CubicBezier.mk.injEq] at h
    unfold identityBezier at h
    norm_num at h

/-- Counterexample for C1 as stated: with dimension 0 constant and
dimension 1 changing by 100 (far above epsilon), degenerate
(speed 0, influence 0) handles on the dominant dimension make the formula
itself produce exactly `(0, 0, 1, 1)`, so "the returned bezier is not the
identity fallback" fails. -/
theorem spec_C1_counterexample :
    (5 : ℚ) - 5 = 0
    ∧ ¬(|(100 : ℚ) - 0| < 1/10000)
    ∧ EasingV2.convertEasingWithValues zeroEase2 zeroEase2 1
        (.arr [5, 0]) (.arr [5, 100]) = some identityBezier := by
  have hfbd : findBestDimension (.arr [5, 0]) (.arr [5, 100]) = (1, 100) := by
    rw [findBestDimension_arr]
    norm_num [foldBest, List.range_succ]
  refine ⟨by norm_num, by norm_num, ?_⟩
  have hconv := convertEasingWithValues_dominant zeroEase2 zeroEase2 1
    (.arr [5, 0]) (.arr [5, 100]) 1 100 ⟨0, 0⟩ ⟨0, 0⟩ hfbd
    (by norm_num) rfl rfl
  rw [hconv, Option.some_inj]
  unfold identityBezier
  simp only [CubicBezier.mk.injEq]
  refine ⟨?_, ?_, ?_, ?_⟩ <;>
    norm_num [clamp01, round4, jround, Int.floor_eq_iff]

/-- Witness for C1: the dominant-dimension facts instantiated on the
concrete two-dimensional Easy-Ease scenario. -/
theorem spec_C1_dominant_dimension_witness :
    |(100 : ℚ) - 0|
      ≤ |(findBestDimension (.arr [5, 0]) (.arr [5, 100])).2|
    ∧ (findBestDimension (.arr [5, 0]) (.arr [5, 100])).1 < 2 := by
  constructor
  · exact spec_C1_dominant_dimension.1 [5, 0] [5, 100] 1 (by norm_num)
  · exact (spec_C1_dominant_dimension.2.1 [5, 0] [5, 100] (by norm_num)).1

/-- **C6.** All three easing converters clamp `x1` and `x2` into `[0, 1]`
for every input they return a result on, while `y1`/`y2` are left
unclamped: the final two parts exhibit concrete finite inputs (influence
200 > 100, and a fast outgoing handle) whose returned `y` coordinates lie
outside `[0, 1]`. -/
theorem spec_C6_x_clamped :
    (∀ (oe ie : List Ease) (dur : ℚ) (b : CubicBezier),
        convertEasingToCubicBezier oe ie dur = some b →
        0 ≤ b.x1 ∧ b.x1 ≤ 1 ∧ 0 ≤ b.x2 ∧ b.x2 ≤ 1)
    ∧ (∀ (oe ie : List Ease) (dur : ℚ) (s e : JSValue) (b : CubicBezier),
        EasingV1.convertEasingWithValues oe ie dur s e = some b →
        0 ≤ b.x1 ∧ b.x1 ≤ 1 ∧ 0 ≤ b.x2 ∧ b.x2 ≤ 1)
    ∧ (∀ (oe ie : List Ease) (dur : ℚ) (s e : JSValue) (b : CubicBezier),
        EasingV2.convertEasingWithValues oe ie dur s e = some b →
        0 ≤ b.x1 ∧ b.x1 ≤ 1 ∧ 0 ≤ b.x2 ∧ b.x2 ≤ 1)
    ∧ convertEasingToCubicBezier [⟨1, 200⟩] [⟨1, 200⟩] 1
        = some ⟨1, 2, 0, -1⟩
    ∧ EasingV2.convertEasingWithValues [⟨10, 50⟩] [⟨0, 100/3⟩] 1
        (.num 0) (.num 1)
        = some ⟨1/2, 5, 6667/10000, 1⟩ := by
  refine ⟨?_, ?_, ?_, ?_, ?_⟩
  · intro oe ie dur b h
    unfold convertEasingToCubicBezier at h
    split at h
    · rw [Option.some_inj] at h
      subst h
      exact ⟨(round4_clamp01_unit _).1, (round4_clamp01_unit _).2,
             (round4_clamp01_unit _).1, (round4_clamp01_unit _).2⟩
    · exact absurd h (by simp)
  · intro oe ie dur s e b h
    unfold EasingV1.convertEasingWithValues at h
    split at h
    · exact absurd h (by simp)
    · split at h
      · rw [Option.some_inj] at h
        subst h
        unfold identityBezier
        norm_num
      · split at h
        · rw [Option.some_inj] at h
          subst h
          exact ⟨(round4_clamp01_unit _).1, (round4_clamp01_unit _).2,
                 (round4_clamp01_unit _).1, (round4_clamp01_unit _).2⟩
        · exact absurd h (by simp)
  · intro oe ie dur s e b h
    simp only [EasingV2.convertEasingWithValues] at h
    split at h
    · rw [Option.some_inj] at h
      subst h
      unfold identityBezier
      norm_num
    · split at h
      · rw [Option.some_inj] at h
        subst h
        exact ⟨(round4_clamp01_unit _).1, (round4_clamp01_unit _).2,
               (round4_clamp01_unit _).1, (round4_clamp01_unit _).2⟩
      · exact absurd h (by simp)
  · norm_num [convertEasingToCubicBezier, clamp01, round4, jround,
      Int.floor_eq_iff]
  · have hfbd : findBestDimension (.num 0) (.num 1) = (0, 1) := by
      norm_num [findBestDimension]
    have hconv := convertEasingWithValues_dominant [⟨10, 50⟩] [⟨0, 100/3⟩] 1
      (.num 0) (.num 1) 0 1 ⟨10, 50⟩ ⟨0, 100/3⟩ hfbd
      (by norm_num) rfl rfl
    rw [hconv, Option.some_inj]
    simp only [CubicBezier.mk.injEq]
    refine ⟨?_, ?_, ?_, ?_⟩ <;>
      norm_num [clamp01, round4, jround, Int.floor_eq_iff]

/-- Witness for C6: the clamping bounds applied to the influence-200
result `(1, 2, 0, -1)`, whose `y` coordinates escape `[0, 1]`. -/
theorem spec_C6_x_clamped_witness :
    0 ≤ (CubicBezier.mk 1 2 0 (-1)).x1
    ∧ (CubicBezier.mk 1 2 0 (-1)).x1 ≤ 1
    ∧ 0 ≤ (CubicBezier.mk 1 2 0 (-1)).x2
    ∧ (CubicBezier.mk 1 2 0 (-1)).x2 ≤ 1 :=
  spec_C6_x_clamped.1 [⟨1, 200⟩] [⟨1, 200⟩] 1 ⟨1, 2, 0, -1⟩
    spec_C6_x_clamped.2.2.2.1

/-- **C7.** Both value-aware converters return exactly the identity bezier
`(0, 0, 1, 1)` whenever the absolute value delta they select is below the
epsilon `0.0001` or the segment duration is below `0.0001`; in every other
case the `linearSpeed = |delta / duration|` they divide by is nonzero
(strictly positive). -/
theorem spec_C7_degenerate_guard :
    (∀ (oe ie : List Ease) (dur : ℚ) (s e : JSValue) (dv : ℚ),
        EasingV1.scalarValueChange s e = some dv →
        (|dv| < 1/10000 ∨ dur < 1/10000) →
        EasingV1.convertEasingWithValues oe ie dur s e = some identityBezier)
    ∧ (∀ (dur : ℚ) (s e : JSValue) (dv : ℚ),
        EasingV1.scalarValueChange s e = some dv →
        ¬(|dv| < 1/10000 ∨ dur < 1/10000) →
        0 < |dv / dur|)
    ∧ (∀ (oe ie : List Ease) (dur : ℚ) (s e : JSValue),
        (|(findBestDimension s e).2| < 1/10000 ∨ dur < 1/10000) →
        EasingV2.convertEasingWithValues oe ie dur s e = some identityBezier)
    ∧ (∀ (dur : ℚ) (s e : JSValue),
        ¬(|(findBestDimension s e).2| < 1/10000 ∨ dur < 1/10000) →
        0 < |(findBestDimension s e).2 / dur|) := by
  have habs : ∀ dv dur : ℚ, ¬(|dv| < 1/10000 ∨ dur < 1/10000) →
      0 < |dv / dur| := by
    intro dv dur h
    push_neg at h
    obtain ⟨h1, h2⟩ := h
    have hdv : dv ≠ 0 := by
      intro h0
      rw [h0] at h1
      norm_num at h1
    have hdur : dur ≠ 0 := by
      intro h0
      rw [h0] at h2
      norm_num at h2
    exact abs_pos.mpr (div_ne_zero hdv hdur)
  refine ⟨?_, fun dur s e dv _ h => habs dv dur h, ?_,
          fun dur s e h => habs _ dur h⟩
  · intro oe ie dur s e dv hsel hguard
    unfold EasingV1.convertEasingWithValues
    rw [hsel]
    dsimp only
    rw [if_pos hguard]
  · intro oe ie dur s e hguard
    simp only [EasingV2.convertEasingWithValues]
    rw [if_pos hguard]

/-- Witness for C7: on a constant scalar segment the delta is 0 and both
converters return the identity bezier; on a unit-delta segment the linear
speed is positive. -/
theorem spec_C7_degenerate_guard_witness :
    EasingV1.convertEasingWithValues [] [] 1 (.num 0) (.num 0)
        = some identityBezier
    ∧ EasingV2.convertEasingWithValues [] [] 1 (.num 0) (.num 0)
        = some identityBezier
    ∧ 0 < |(findBestDimension (.num 0) (.num 1)).2 / 1| :=
  ⟨spec_C7_degenerate_guard.1 [] [] 1 (.num 0) (.num 0) 0
      (by norm_num [EasingV1.scalarValueChange]) (by norm_num),
   spec_C7_degenerate_guard.2.2.1 [] [] 1 (.num 0) (.num 0)
      (by norm_num [findBestDimension]),
   spec_C7_degenerate_guard.2.2.2 1 (.num 0) (.num 1)
      (by norm_num [findBestDimension])⟩

/-! ## Lemmas about the bezier primitive -/

theorem sample_id_y_eq_x (t : ℚ) :
    (sampleCubicBezier 0 0 1 1 t).2 = (sampleCubicBezier 0 0 1 1 t).1 := rfl

theorem bezierYForXGo_residual (x1 y1 x2 y2 targetX eps t : ℚ) (n : Nat)
    (h : |(sampleCubicBezier x1 y1 x2 y2 t).1 - targetX| < eps) :
    bezierYForXGo x1 y1 x2 y2 targetX eps (n + 1) t
      = (sampleCubicBezier x1 y1 x2 y2 t).2 := by
  simp only [bezierYForXGo]
  rw [if_pos h]

theorem bezierYForXGo_id_on_curve (targetX eps : ℚ) :
    ∀ (fuel : Nat) (t : ℚ), 0 ≤ t → t ≤ 1 →
      ∃ u, 0 ≤ u ∧ u ≤ 1
        ∧ bezierYForXGo 0 0 1 1 targetX eps fuel t
            = (sampleCubicBezier 0 0 1 1 u).1 := by
  intro fuel
  induction fuel with
  | zero =>
    intro t h0 h1
    exact ⟨t, h0, h1, sample_id_y_eq_x t⟩
  | succ n ih =>
    intro t h0 h1
    simp only [bezierYForXGo]
    by_cases hres : |(sampleCubicBezier 0 0 1 1 t).1 - targetX| < eps
    · rw [if_pos hres]
      exact ⟨t, h0, h1, sample_id_y_eq_x t⟩
    · rw [if_neg hres]
      by_cases hder : |3 * (1 - t) * (1 - t) * 0 + 6 * (1 - t) * t * (1 - 0)
          + 3 * t * t * (1 - 1)| < eps
      · rw [if_pos hder]
        exact ⟨t, h0, h1, sample_id_y_eq_x t⟩
      · rw [if_neg hder]
        exact ih _ (clamp01_mem _).1 (clamp01_mem _).2

/-- **C9 (amended).** On the identity curve parameters `(0, 0, 1, 1)`, for
every target in `[0, 1]` the value `bezierYForX` returns lies **on** the
curve `y = x`: it equals the curve's x-coordinate at some clamped parameter
in `[0, 1]` reached by the bounded (10-step) Newton search, with the
y-polynomial coinciding with the x-polynomial; it equals the target exactly
at targets `0`, `1/2` and `1`.  (The claim's "returns t for every t" is
false in general — the search stops once the residual is within epsilon,
not at the exact value; see the counterexample.) -/
theorem spec_C9_identity_inversion :
    (∀ targetX : ℚ, 0 ≤ targetX → targetX ≤ 1 →
        ∃ t, 0 ≤ t ∧ t ≤ 1
          ∧ bezierYForX 0 0 1 1 targetX (1/10000)
              = (sampleCubicBezier 0 0 1 1 t).1
          ∧ (sampleCubicBezier 0 0 1 1 t).2 = (sampleCubicBezier 0 0 1 1 t).1)
    ∧ bezierYForX 0 0 1 1 0 (1/10000) = 0
    ∧ bezierYForX 0 0 1 1 (1/2) (1/10000) = 1/2
    ∧ bezierYForX 0 0 1 1 1 (1/10000) = 1 := by
  refine ⟨?_, ?_, ?_, ?_⟩
  · intro targetX h0 h1
    obtain ⟨u, hu0, hu1, heq⟩ :=
      bezierYForXGo_id_on_curve targetX (1/10000) 10 targetX h0 h1
    exact ⟨u, hu0, hu1, heq, sample_id_y_eq_x u⟩
  · have hres : |(sampleCubicBezier 0 0 1 1 0).1 - 0| < 1/10000 := by
      norm_num [sampleCubicBezier]
    have h := bezierYForXGo_residual 0 0 1 1 0 (1/10000) 0 9 hres
    calc bezierYForX 0 0 1 1 0 (1/10000)
        = (sampleCubicBezier 0 0 1 1 0).2 := h
      _ = 0 := by norm_num [sampleCubicBezier]
  · have hres : |(sampleCubicBezier 0 0 1 1 (1/2)).1 - 1/2| < 1/10000 := by
      norm_num [sampleCubicBezier]
    have h := bezierYForXGo_residual 0 0 1 1 (1/2) (1/10000) (1/2) 9 hres
    calc bezierYForX 0 0 1 1 (1/2) (1/10000)
        = (sampleCubicBezier 0 0 1 1 (1/2)).2 := h
      _ = 1/2 := by norm_num [sampleCubicBezier]
  · have hres : |(sampleCubicBezier 0 0 1 1 1).1 - 1| < 1/10000 := by
      norm_num [sampleCubicBezier]
    have h := bezierYForXGo_residual 0 0 1 1 1 (1/10000) 1 9 hres
    calc bezierYForX 0 0 1 1 1 (1/10000)
        = (sampleCubicBezier 0 0 1 1 1).2 := h
      _ = 1 := by norm_num [sampleCubicBezier]

/-- Counterexample for C9 as stated: at target `x = 1/100000 ∈ [0, 1]` the
very first Newton residual is already below epsilon, so the function
returns the curve value `299998/10^15 ≠ 1/100000` — `bezierYForX` on the
identity curve is *not* the exact identity map. -/
theorem spec_C9_counterexample :
    0 ≤ (1/100000 : ℚ) ∧ (1/100000 : ℚ) ≤ 1
    ∧ bezierYForX 0 0 1 1 (1/100000) (1/10000) ≠ 1/100000 := by
  refine ⟨by norm_num, by norm_num, ?_⟩
  have hx : (sampleCubicBezier 0 0 1 1 (1/100000)).1
      = 299998/1000000000000000 := by
    norm_num [sampleCubicBezier]
  have hres : |(sampleCubicBezier 0 0 1 1 (1/100000)).1 - 1/100000|
      < 1/10000 := by
    rw [hx, abs_of_nonpos (by norm_num)]
    norm_num
  have h := bezierYForXGo_residual 0 0 1 1 (1/100000) (1/10000) (1/100000) 9 hres
  intro hEq
  rw [show bezierYForX 0 0 1 1 (1/100000) (1/10000)
      = (sampleCubicBezier 0 0 1 1 (1/100000)).2 from h] at hEq
  rw [sample_id_y_eq_x, hx] at hEq
  norm_num at hEq

/-- Witness for C9: the on-curve fact instantiated at target `1/4`. -/
theorem spec_C9_identity_inversion_witness :
    ∃ t, 0 ≤ t ∧ t ≤ 1
      ∧ bezierYForX 0 0 1 1 (1/4) (1/10000)
          = (sampleCubicBezier 0 0 1 1 t).1
      ∧ (sampleCubicBezier 0 0 1 1 t).2 = (sampleCubicBezier 0 0 1 1 t).1 :=
  spec_C9_identity_inversion.1 (1/4) (by norm_num) (by norm_num)
